import Mathlib

/-!
Verification of the MN DNR cross-section geoprocessing scripts
(`Scripts3_3_1/Create2Dpoints_SWL.py` and `Scripts3_3_1/CreateConspys.py`).

The two scripts project well points onto cross-section polylines, measure the
position along the line, and synthesize 2D display coordinates with a vertical
exaggeration factor.  The geometry primitives below model the planar geometry
operations of the arcpy library that the scripts call (`Near` analysis with
LOCATION, `measureOnLine`, `angleAndDistanceTo` composed with
`pointFromAngleAndDistance`); the script-level definitions are translated
line-by-line from the Python sources.
-/

namespace Xsec

noncomputable section

/-- A planar point, as used by both scripts (x, y in the map coordinate
system, meters). -/
abbrev Point := ℝ × ℝ

/-- Default point used for out-of-range list indexing (the Python code would
raise IndexError there; all claims restrict to lists long enough that the
default is never consulted). -/
def origin : Point := (0, 0)

/-- Squared Euclidean distance between two planar points. -/
def d2 (p q : Point) : ℝ := (p.1 - q.1) ^ 2 + (p.2 - q.2) ^ 2

/-- Planar dot product. -/
def dotP (u v : Point) : ℝ := u.1 * v.1 + u.2 * v.2

/-- Componentwise difference of two points. -/
def subP (p q : Point) : Point := (p.1 - q.1, p.2 - q.2)

/-- Euclidean length of the segment from `a` to `b` (model of arcpy planar
distance). -/
def segLen (a b : Point) : ℝ := Real.sqrt (d2 a b)

/-- Total arc length of a polyline given as its vertex list. -/
def polyLen : List Point → ℝ
  | a :: b :: rest => segLen a b + polyLen (b :: rest)
  | _ => 0

/-- Parameter in [0, 1] of the point on segment `a`-`b` closest to `q`
(the perpendicular projection, clamped to the segment). -/
def segParam (a b q : Point) : ℝ :=
  if d2 a b = 0 then 0
  else max 0 (min 1 (dotP (subP q a) (subP b a) / d2 a b))

/-- Point at parameter `t` along segment `a`-`b`. -/
def segPt (a b : Point) (t : ℝ) : Point :=
  (a.1 + t * (b.1 - a.1), a.2 + t * (b.2 - a.2))

/-- State of the nearest-point scan over the segments of a polyline:
best squared distance found so far, the corresponding nearest point, and the
arc-length measure of that point from the start of the polyline. -/
structure ScanSt where
  d2best : ℝ
  pt : Point
  m : ℝ

/-- Scan the remaining segments of a polyline, keeping the first segment
that attains the minimal distance to the query point `q`.  `cum` is the
arc length accumulated before the current segment. -/
def scanSegs (q : Point) : List (Point × Point) → ℝ → ScanSt → ScanSt
  | [], _, st => st
  | (a, b) :: rest, cum, st =>
    let t := segParam a b q
    let p := segPt a b t
    let dd := d2 q p
    let st' := if dd < st.d2best then ⟨dd, p, cum + t * segLen a b⟩ else st
    scanSegs q rest (cum + segLen a b) st'

/-- Full nearest-point scan of a polyline `pts` against query point `q`:
model of the arcpy `Near` analysis (with LOCATION) and of
`Polyline.measureOnLine`, which both scripts apply to the extended
cross-section line.  A polyline with fewer than two vertices is degenerate
(the library would reject it); the scan then returns a dummy state. -/
def polyScan (pts : List Point) (q : Point) : ScanSt :=
  match pts with
  | a :: b :: rest =>
    let t := segParam a b q
    scanSegs q ((b :: rest).zip rest) (segLen a b)
      ⟨d2 q (segPt a b t), segPt a b t, t * segLen a b⟩
  | _ => ⟨0, q, 0⟩

/-- NEAR_X / NEAR_Y of the `Near` analysis: the point on the polyline
closest to `q`. -/
def polyNearPt (pts : List Point) (q : Point) : Point := (polyScan pts q).pt

/-- NEAR_DIST of the `Near` analysis: distance from `q` to the nearest
point on the polyline. -/
def polyNearDist (pts : List Point) (q : Point) : ℝ :=
  Real.sqrt (polyScan pts q).d2best

/-- `arcpy.Polyline.measureOnLine`: arc length from the start of the
polyline to the point on it nearest to `q`. -/
def measureOnLine (pts : List Point) (q : Point) : ℝ := (polyScan pts q).m

/-- Composition of `q.angleAndDistanceTo(p, "PLANAR")` (take the angle) with
`p.pointFromAngleAndDistance(angle, buffer, "PLANAR")`: the point `buffer`
beyond `p` on the ray from `q` through `p`
(`Create2Dpoints_SWL.py` lines 274-286, `CreateConspys.py` lines 331-343). -/
def unitExtendPt (q p : Point) (buffer : ℝ) : Point :=
  (p.1 + buffer / segLen q p * (p.1 - q.1),
   p.2 + buffer / segLen q p * (p.2 - q.2))

/-- The body of the xsln extension loop
(`Create2Dpoints_SWL.py` lines 263-301, `CreateConspys.py` lines 320-358):
compute replacement first and last vertices, each `buffer` beyond the
original endpoint along the direction of the original terminal segment
(indices 0, 1, -1, -2 of the vertex list, all read before either
substitution), then substitute both.  Lists with fewer than two vertices are
left unchanged (the Python code would raise IndexError on them). -/
def extendLine (buffer : ℝ) (pts : List Point) : List Point :=
  if 2 ≤ pts.length then
    let beg_pt := pts.getD 0 origin
    let beg_pt2 := pts.getD 1 origin
    let end_pt := pts.getD (pts.length - 1) origin
    let end_pt2 := pts.getD (pts.length - 2) origin
    let new_beg := unitExtendPt beg_pt2 beg_pt buffer
    let new_end := unitExtendPt end_pt2 end_pt buffer
    (pts.set 0 new_beg).set (pts.length - 1) new_end
  else pts

/-- One row of the cross-section line feature class: its `et_id` value and
its vertex list (`SHAPE@`). -/
structure XslnRow where
  et_id : String
  shape : List Point

/-- The whole xsln extension loop: one extended line written to `xsln_temp`
per input line, carrying the same `et_id`. -/
def extendXslnLoop (buffer : ℝ) (rows : List XslnRow) : List XslnRow :=
  rows.map (fun r => ⟨r.et_id, extendLine buffer r.shape⟩)

/-- The OnLine_DIST value computed by the update cursor
(`Create2Dpoints_SWL.py` lines 328-341, `CreateConspys.py` lines 385-398):
take the Near-analysis location (NEAR_X, NEAR_Y) on the extended line,
measure along the extended line to that point, and subtract the buffer
distance so the result is relative to the original line start. -/
def onLineDistVal (buffer : ℝ) (pts : List Point) (q : Point) : ℝ :=
  measureOnLine (extendLine buffer pts) (polyNearPt (extendLine buffer pts) q)
    - buffer

/-! ### Script arithmetic (translated from the Python sources) -/

/-- Python `int()` truncation toward zero, as applied to the along-line
distance in `Create2Dpoints_SWL.py` line 387. -/
def pyInt (x : ℝ) : ℤ := if 0 ≤ x then ⌊x⌋ else ⌈x⌉

/-- 2D display x-coordinate of `Create2Dpoints_SWL.py` lines 386-388:
the OnLine_DIST meters value is truncated by `int()`, divided by 0.3048
to get feet, then divided by the vertical exaggeration. -/
def swl_x_coord_2d (ve s : ℝ) : ℝ := ((pyInt s : ℤ) : ℝ) / 0.3048 / ve

/-- 2D display x-coordinate of `CreateConspys.py` lines 458-460: the
OnLine_DIST meters value is divided by 0.3048 to get feet, then divided by
the vertical exaggeration (no truncation). -/
def conspy_x_coord (ve s : ℝ) : ℝ := s / 0.3048 / ve

/-- Percent distance (`Create2Dpoints_SWL.py` line 375,
`CreateConspys.py` line 462). -/
def pct_dist_val (buffer d : ℝ) : ℝ := d / buffer * 200

/-! ### Near-analysis assignment of wells to lines -/

/-- The Near-analysis fields written into a selected well file
(`Create2Dpoints_SWL.py` lines 308-341, `CreateConspys.py` lines 365-398):
the scripts loop over the extended lines, select the wells whose cross
section id equals the line id, and run the Near analysis against that
line only.  For a well with the given id and location this yields
(NEAR_DIST, OnLine_DIST) computed from the first line whose `et_id`
matches, or nothing when no line matches (the well then appears in no
selected file). -/
def nearFields (buffer : ℝ) (extLines : List XslnRow) (etid : String)
    (loc : Point) : Option (ℝ × ℝ) :=
  (extLines.find? (fun r => r.et_id = etid)).map
    (fun r => (polyNearDist r.shape loc,
      measureOnLine r.shape (polyNearPt r.shape loc) - buffer))

/-- Near fields of a well, starting from the original cross-section lines
(the scripts first build `xsln_temp` by the extension loop). -/
def wellNear (buffer : ℝ) (lines : List XslnRow) (etid : String)
    (loc : Point) : Option (ℝ × ℝ) :=
  nearFields buffer (extendXslnLoop buffer lines) etid loc

/-! ### SWL script: 2D point creation (`Create2Dpoints_SWL.py` 367-403) -/

/-- Fields of a merged well point row read by the SWL 2D point loop. -/
structure SWLWell where
  wellid : String
  etid : String
  loc : Point
  elevation : Option ℝ
  meas_elev : Option ℝ
  measuremt : Option ℝ
  data_source : String

/-- One output row of the 2D SWL point file `swl_2d_xsecview`. -/
structure SWLRow where
  shape : Point
  wellid : String
  etid : String
  x_coord : ℝ
  y_coord : ℝ
  x_coord_2d : ℝ
  y_coord_2d : ℝ
  distance : ℝ
  elevation : ℝ
  meas_elev : ℝ
  pct_dist : ℝ
  measuremt : Option ℝ
  buff_dist : ℝ
  ve : ℝ
  data_source : String

/-- Body of the SWL 2D point loop for one well, given the NEAR_DIST value
`nd` and the OnLine_DIST value `od` of that well: rows whose `elevation`
or `meas_elev` field is null are skipped (no output row), all others
produce exactly one row. -/
def swlProcessWell (buffer ve nd od : ℝ) (w : SWLWell) : Option SWLRow :=
  match w.elevation with
  | none => none
  | some wz =>
    match w.meas_elev with
    | none => none
    | some sz =>
      some ⟨(swl_x_coord_2d ve od, sz), w.wellid, w.etid, w.loc.1, w.loc.2,
        swl_x_coord_2d ve od, sz, nd, wz, sz, pct_dist_val buffer nd,
        w.measuremt, buffer, ve, w.data_source⟩

/-- The SWL pipeline from original lines and wells to the 2D point rows:
wells whose id matches no line are absent from the merge (they are in no
selected per-line file); the rest go through `swlProcessWell` with their
Near-analysis fields. -/
def swlCreate2D (buffer ve : ℝ) (lines : List XslnRow)
    (wells : List SWLWell) : List SWLRow :=
  wells.filterMap (fun w =>
    (wellNear buffer lines w.etid w.loc).bind
      (fun p => swlProcessWell buffer ve p.1 p.2 w))

/-! ### Construction script: polyline creation (`CreateConspys.py` 421-501) -/

/-- Fields of a merged well point row consulted by the construction loop. -/
structure MergedWell where
  wellid : String
  etid : String
  loc : Point
  online_dist : ℝ
  near_dist : ℝ

/-- One record of the construction table. -/
structure ConspyRec where
  oid : ℤ
  wellid : String
  elev_top : Option ℝ
  elev_bot : Option ℝ

/-- One output row of the 3D polyline file `conspys_3d`. -/
structure ConspyRow3D where
  shapeA : ℝ × ℝ × ℝ
  shapeB : ℝ × ℝ × ℝ
  wellid : String
  etid : String
  x_coord : ℝ
  y_coord : ℝ
  z_top : ℝ
  z_bot : ℝ
  oid : ℤ

/-- One output row of the 2D polyline file `conspys_2d_line`. -/
structure ConspyRow2D where
  shapeA : Point
  shapeB : Point
  wellid : String
  etid : String
  x_coord : ℝ
  y_coord : ℝ
  z_top : ℝ
  z_bot : ℝ
  oid : ℤ
  distance : ℝ
  pct_dist : ℝ
  buff_dist : ℝ
  ve : ℝ

/-- Body of the construction loop for one record (`CreateConspys.py`
lines 429-496): records with a null `elev_top` or `elev_bot` are skipped
before the well lookup; records whose well id matches no merged well point
produce no rows and contribute their well id to the no-match list; for a
match, the loop variables hold the values of the last matching well row
(the Python `for` loop overwrites them on each iteration), and one 3D row
and one 2D row are written. -/
def conspyStep (buffer ve : ℝ) (wells : List MergedWell) (r : ConspyRec) :
    Option ConspyRow3D × Option ConspyRow2D × Option String :=
  match r.elev_top with
  | none => (none, none, none)
  | some zt =>
    match r.elev_bot with
    | none => (none, none, none)
    | some zb =>
      match (wells.filter (fun w => w.wellid = r.wellid)).getLast? with
      | none => (none, none, some r.wellid)
      | some w =>
        (some ⟨(w.loc.1, w.loc.2, zt), (w.loc.1, w.loc.2, zb), r.wellid,
            w.etid, w.loc.1, w.loc.2, zt, zb, r.oid⟩,
         some ⟨(conspy_x_coord ve w.online_dist, zt),
            (conspy_x_coord ve w.online_dist, zb), r.wellid, w.etid,
            w.loc.1, w.loc.2, zt, zb, r.oid, w.near_dist,
            pct_dist_val buffer w.near_dist, buffer, ve⟩,
         none)

/-- The whole construction loop: 3D rows, 2D rows, and the no-match list
accumulated over the construction records in order. -/
def conspyPhase (buffer ve : ℝ) (wells : List MergedWell) :
    List ConspyRec → List ConspyRow3D × List ConspyRow2D × List String
  | [] => ([], [], [])
  | r :: rest =>
    let s := conspyStep buffer ve wells r
    let t := conspyPhase buffer ve wells rest
    (s.1.toList ++ t.1, s.2.1.toList ++ t.2.1, s.2.2.toList ++ t.2.2)

/-- A construction record that will land on the no-match list: non-null
elevations but no matching merged well point. -/
def conspyNoMatch (wells : List MergedWell) (x : ConspyRec) : Bool :=
  x.elev_top.isSome && x.elev_bot.isSome
    && (wells.filter (fun w => w.wellid = x.wellid)).isEmpty

/-- The final no-match report (`CreateConspys.py` lines 500-501): the
count of skipped records is printed once, and only when the no-match list
is nonempty. -/
def conspyNoMatchReport (nm : List String) : Option ℕ :=
  if 0 < nm.length then some nm.length else none

/-! ### Validation stage and run models -/

/-- Parameter QC of both scripts (`Create2Dpoints_SWL.py` lines 110-118,
`CreateConspys.py` lines 98-106): `raise SystemExit` when the buffer
distance or the vertical exaggeration is not positive. -/
def paramCheck (buffer ve : ℤ) : Except String Unit :=
  if buffer ≤ 0 then
    Except.error "Error: Buffer distance must be greater than zero."
  else if ve ≤ 0 then
    Except.error "Error: Vertical Exaggeration must be greater than 0."
  else Except.ok ()

/-- Row-count QC of the SWL script (`Create2Dpoints_SWL.py` lines
120-133). -/
def swlCountCheck (wwpt_count xsln_count : ℕ) : Except String Unit :=
  if wwpt_count = 0 then
    Except.error "Error: well location point file is empty."
  else if xsln_count = 0 then
    Except.error "Error: cross section line file is empty."
  else Except.ok ()

/-- Row-count QC of the construction script (`CreateConspys.py` lines
125-143): construction table first, then well points, then lines. -/
def conspyCountCheck (conspy_count wwpt_count xsln_count : ℕ) :
    Except String Unit :=
  if conspy_count = 0 then
    Except.error "Error: construction table is empty."
  else if wwpt_count = 0 then
    Except.error "Error: well location point file is empty."
  else if xsln_count = 0 then
    Except.error "Error: cross section line file is empty."
  else Except.ok ()

/-- Validation sequence of the SWL script: parameter checks run before
the row-count checks. -/
def swlValidate (buffer ve : ℤ) (wc xc : ℕ) : Except String Unit :=
  match paramCheck buffer ve with
  | Except.error e => Except.error e
  | Except.ok _ => swlCountCheck wc xc

/-- Validation sequence of the construction script. -/
def conspyValidate (buffer ve : ℤ) (cc wc xc : ℕ) : Except String Unit :=
  match paramCheck buffer ve with
  | Except.error e => Except.error e
  | Except.ok _ => conspyCountCheck cc wc xc

/-- Control-flow summary of one script run: the output feature classes
created, and the SystemExit message if the run halted during
validation. -/
structure RunModel where
  created : List String
  halted : Option String

/-- Run model of the SWL script: every `CreateFeatureclass` call for an
output comes after the validation stage (section 9 of the script follows
sections 5-7). -/
def swlRun (buffer ve : ℤ) (wc xc : ℕ) : RunModel :=
  match swlValidate buffer ve wc xc with
  | Except.error e => ⟨[], some e⟩
  | Except.ok _ => ⟨["swl_2d_xsecview", "swl_2d_xsecview_prj"], none⟩

/-- Run model of the construction script: every output feature class is
created after the validation stage (sections 9-10 follow sections 5-7). -/
def conspyRun (buffer ve : ℤ) (cc wc xc : ℕ) : RunModel :=
  match conspyValidate buffer ve cc wc xc with
  | Except.error e => ⟨[], some e⟩
  | Except.ok _ =>
    ⟨["conspys_3d", "conspys_2d_line", "conspys_2d_poly",
      "conspy_2d_poly_prj"], none⟩

/-- The full SWL pipeline x-coordinate for one well against one line:
Near analysis and measure on the extended line, then the SWL feet/VE
arithmetic (with the `int()` truncation). -/
def swlWellX (buffer ve : ℝ) (pts : List Point) (q : Point) : ℝ :=
  swl_x_coord_2d ve (onLineDistVal buffer pts q)

/-- The full construction-script pipeline x-coordinate for one well
against one line: identical Near analysis and measure, then the
construction-script feet/VE arithmetic (no truncation). -/
def conspyWellX (buffer ve : ℝ) (pts : List Point) (q : Point) : ℝ :=
  conspy_x_coord ve (onLineDistVal buffer pts q)

/-! ### Concrete demonstration data -/

/-- A horizontal two-vertex cross-section line from (0,0) to (10,0). -/
def demoPts : List Point := [(0, 0), (10, 0)]

/-- Demo cross-section line "A", 5 units above the origin. -/
def demoLineA : XslnRow := ⟨"A", [(0, 5), (10, 5)]⟩

/-- Demo cross-section line "B", 1 unit above the origin. -/
def demoLineB : XslnRow := ⟨"B", [(0, 1), (10, 1)]⟩

/-- Demo cross-section line feature class. -/
def demoLines : List XslnRow := [demoLineA, demoLineB]

/-- Demo well with non-null elevation fields. -/
def demoWell : SWLWell := ⟨"w1", "A", (0, 0), some 100, some 90, none, "src"⟩

/-- Demo well with a null elevation field. -/
def demoWellNull : SWLWell := ⟨"w0", "A", (0, 0), none, some 1, none, "src"⟩

/-- Demo construction record with non-null elevations. -/
def demoRec : ConspyRec := ⟨1, "w1", some 100, some 80⟩

/-- Demo construction record with a null `elev_top`. -/
def demoRecNull : ConspyRec := ⟨2, "w9", none, some 0⟩

/-- Demo merged well point. -/
def demoMerged : MergedWell := ⟨"w1", "A", (0, 0), 3, 7⟩

/-- The SWL output row produced for `demoWell` with NEAR_DIST 7 and
OnLine_DIST 3. -/
def demoRow : SWLRow :=
  ⟨(swl_x_coord_2d 50 3, 90), "w1", "A", 0, 0, swl_x_coord_2d 50 3, 90, 7,
    100, 90, pct_dist_val 500 7, none, 500, 50, "src"⟩

/-- The 2D construction row produced for `demoRec` against
`[demoMerged]`. -/
def demoRow2D : ConspyRow2D :=
  ⟨(conspy_x_coord 50 3, 100), (conspy_x_coord 50 3, 80), "w1", "A", 0, 0,
    100, 80, 1, 7, pct_dist_val 500 7, 500, 50⟩

/-- The Near-analysis fields computed for a well at the origin with cross
section id "A" against the demo lines. -/
def demoNearPair : ℝ × ℝ :=
  (polyNearDist (extendLine 500 demoLineA.shape) ((0 : ℝ), (0 : ℝ)),
   measureOnLine (extendLine 500 demoLineA.shape)
     (polyNearPt (extendLine 500 demoLineA.shape) ((0 : ℝ), (0 : ℝ))) - 500)

/-! ### Basic facts about the geometry primitives -/

theorem d2_comm (p q : Point) : d2 p q = d2 q p := by
  unfold d2; ring

theorem d2_nonneg (p q : Point) : 0 ≤ d2 p q := by
  unfold d2; positivity

theorem d2_eq_zero_iff (p q : Point) : d2 p q = 0 ↔ p = q := by
  unfold d2
  constructor
  · intro h
    have h1 : (p.1 - q.1) ^ 2 = 0 :=
      le_antisymm (by nlinarith [sq_nonneg (p.2 - q.2)]) (sq_nonneg _)
    have h2 : (p.2 - q.2) ^ 2 = 0 :=
      le_antisymm (by nlinarith [sq_nonneg (p.1 - q.1)]) (sq_nonneg _)
    have e1 : p.1 = q.1 := by have := sq_eq_zero_iff.mp h1; linarith
    have e2 : p.2 = q.2 := by have := sq_eq_zero_iff.mp h2; linarith
    exact Prod.ext e1 e2
  · intro h; subst h; ring

theorem segLen_nonneg (a b : Point) : 0 ≤ segLen a b := Real.sqrt_nonneg _

theorem segLen_pos {a b : Point} (h : a ≠ b) : 0 < segLen a b :=
  Real.sqrt_pos.mpr (lt_of_le_of_ne (d2_nonneg a b)
    (fun he => h ((d2_eq_zero_iff a b).mp he.symm)))

theorem segLen_comm (a b : Point) : segLen a b = segLen b a := by
  unfold segLen; rw [d2_comm]

/-- The new endpoint lies exactly `buffer` away from the original endpoint
`p` (along the ray from `q` through `p`). -/
theorem segLen_unitExtendPt_self {q p : Point} (h : q ≠ p) {buffer : ℝ}
    (hb : 0 ≤ buffer) : segLen p (unitExtendPt q p buffer) = buffer := by
  have hL : 0 < segLen q p := segLen_pos h
  have hLe : segLen q p * segLen q p = d2 q p := by
    have := Real.mul_self_sqrt (d2_nonneg q p)
    simpa [segLen] using this
  unfold segLen unitExtendPt d2
  have key : (p.1 - (p.1 + buffer / segLen q p * (p.1 - q.1))) ^ 2 +
      (p.2 - (p.2 + buffer / segLen q p * (p.2 - q.2))) ^ 2
      = (buffer / segLen q p) ^ 2 * ((q.1 - p.1) ^ 2 + (q.2 - p.2) ^ 2) := by
    ring
  rw [key]
  rw [Real.sqrt_mul (sq_nonneg _), Real.sqrt_sq (by positivity)]
  have : Real.sqrt ((q.1 - p.1) ^ 2 + (q.2 - p.2) ^ 2) = segLen q p := rfl
  rw [this, div_mul_cancel₀ _ (ne_of_gt hL)]

/-- Extending a segment endpoint lengthens the segment by exactly
`buffer`. -/
theorem segLen_unitExtendPt {q p : Point} (h : q ≠ p) {buffer : ℝ}
    (hb : 0 ≤ buffer) : segLen q (unitExtendPt q p buffer) = segLen q p + buffer := by
  have hL : 0 < segLen q p := segLen_pos h
  unfold segLen unitExtendPt d2
  have key : (q.1 - (p.1 + buffer / segLen q p * (p.1 - q.1))) ^ 2 +
      (q.2 - (p.2 + buffer / segLen q p * (p.2 - q.2))) ^ 2
      = (1 + buffer / segLen q p) ^ 2 * ((q.1 - p.1) ^ 2 + (q.2 - p.2) ^ 2) := by
    ring
  rw [key]
  rw [Real.sqrt_mul (sq_nonneg _), Real.sqrt_sq (by positivity)]
  have hs : Real.sqrt ((q.1 - p.1) ^ 2 + (q.2 - p.2) ^ 2) = segLen q p := rfl
  rw [hs]
  field_simp

theorem extendLine_nil (buffer : ℝ) : extendLine buffer [] = [] := rfl

theorem extendLine_eq {buffer : ℝ} {pts : List Point} (h2 : 2 ≤ pts.length) :
    extendLine buffer pts =
      (pts.set 0 (unitExtendPt (pts.getD 1 origin) (pts.getD 0 origin) buffer)).set
        (pts.length - 1)
        (unitExtendPt (pts.getD (pts.length - 2) origin)
          (pts.getD (pts.length - 1) origin) buffer) := by
  simp only [extendLine, if_pos h2]

/-- Claim C9: the line-extension step modifies only the first and last
vertices of each cross-section polyline; interior vertices are copied
unchanged, the new first (last) vertex lies exactly `buffer` beyond the
original first (last) vertex along the direction of the original terminal
segment, both replacement endpoints are computed from the original
coordinates before either is substituted (including for two-vertex lines),
and exactly one extended line is written per input line with the same
`et_id`. -/
theorem claim_C9 (buffer : ℝ) (rows : List XslnRow) (pts : List Point)
    (h2 : 2 ≤ pts.length) :
    (extendLine buffer pts).length = pts.length
    ∧ (∀ i, 0 < i → i < pts.length - 1 →
        (extendLine buffer pts).getD i origin = pts.getD i origin)
    ∧ (extendLine buffer pts).getD 0 origin
        = unitExtendPt (pts.getD 1 origin) (pts.getD 0 origin) buffer
    ∧ (extendLine buffer pts).getD (pts.length - 1) origin
        = unitExtendPt (pts.getD (pts.length - 2) origin)
            (pts.getD (pts.length - 1) origin) buffer
    ∧ (0 ≤ buffer → pts.getD 1 origin ≠ pts.getD 0 origin →
        segLen (pts.getD 0 origin) ((extendLine buffer pts).getD 0 origin)
          = buffer)
    ∧ (0 ≤ buffer → pts.getD (pts.length - 2) origin
          ≠ pts.getD (pts.length - 1) origin →
        segLen (pts.getD (pts.length - 1) origin)
          ((extendLine buffer pts).getD (pts.length - 1) origin) = buffer)
    ∧ (∀ a b : Point, extendLine buffer [a, b]
        = [unitExtendPt b a buffer, unitExtendPt a b buffer])
    ∧ (extendXslnLoop buffer rows).length = rows.length
    ∧ (∀ j, ((extendXslnLoop buffer rows).getD j ⟨"", []⟩).et_id
          = (rows.getD j ⟨"", []⟩).et_id
        ∧ ((extendXslnLoop buffer rows).getD j ⟨"", []⟩).shape
          = extendLine buffer (rows.getD j ⟨"", []⟩).shape) := by
  have hlen : 2 ≤ pts.length := h2
  have hne : pts.length - 1 ≠ 0 := by omega
  have hget0 : (extendLine buffer pts).getD 0 origin
      = unitExtendPt (pts.getD 1 origin) (pts.getD 0 origin) buffer := by
    rw [extendLine_eq h2, List.getD_eq_getElem?_getD,
      List.getElem?_set_ne hne, List.getElem?_set_eq_of_lt _ (by omega)]
    rfl
  have hgetLast : (extendLine buffer pts).getD (pts.length - 1) origin
      = unitExtendPt (pts.getD (pts.length - 2) origin)
          (pts.getD (pts.length - 1) origin) buffer := by
    rw [extendLine_eq h2, List.getD_eq_getElem?_getD,
      List.getElem?_set_eq_of_lt _ (by simp [List.length_set]; omega)]
    rfl
  refine ⟨?_, ?_, hget0, hgetLast, ?_, ?_, ?_, ?_, ?_⟩
  · rw [extendLine_eq h2]; simp [List.length_set]
  · intro i hi hilt
    rw [extendLine_eq h2, List.getD_eq_getElem?_getD,
      List.getElem?_set_ne (by omega), List.getElem?_set_ne (by omega),
      ← List.getD_eq_getElem?_getD]
  · intro hb hq
    rw [hget0]
    exact segLen_unitExtendPt_self hq hb
  · intro hb hq
    rw [hgetLast]
    exact segLen_unitExtendPt_self hq hb
  · intro a b
    simp [extendLine, List.set]
  · simp [extendXslnLoop]
  · intro j
    cases hr : rows[j]? with
    | none =>
      constructor <;>
        simp [extendXslnLoop, List.getD_eq_getElem?_getD, List.getElem?_map,
          hr, extendLine_nil]
    | some r =>
      constructor <;>
        simp [extendXslnLoop, List.getD_eq_getElem?_getD, List.getElem?_map, hr]

/-! ### Concrete evaluations on the demonstration data -/

theorem segLen_demo1 : segLen ((10 : ℝ), (0 : ℝ)) ((0 : ℝ), (0 : ℝ)) = 10 := by
  show Real.sqrt (((10 : ℝ) - 0) ^ 2 + ((0 : ℝ) - 0) ^ 2) = 10
  rw [show ((10 : ℝ) - 0) ^ 2 + ((0 : ℝ) - 0) ^ 2 = 10 ^ 2 by norm_num,
    Real.sqrt_sq (by norm_num : (0 : ℝ) ≤ 10)]

theorem segLen_demo2 : segLen ((0 : ℝ), (0 : ℝ)) ((10 : ℝ), (0 : ℝ)) = 10 := by
  rw [segLen_comm]; exact segLen_demo1

theorem unitExtendPt_demo1 :
    unitExtendPt ((10 : ℝ), (0 : ℝ)) ((0 : ℝ), (0 : ℝ)) 5 = ((-5 : ℝ), (0 : ℝ)) := by
  unfold unitExtendPt
  rw [segLen_demo1]
  norm_num

theorem unitExtendPt_demo2 :
    unitExtendPt ((0 : ℝ), (0 : ℝ)) ((10 : ℝ), (0 : ℝ)) 5 = ((15 : ℝ), (0 : ℝ)) := by
  unfold unitExtendPt
  rw [segLen_demo2]
  norm_num

/-- The extension of the demo line with buffer 5 is the segment from
(-5,0) to (15,0). -/
theorem extendLine_demo : extendLine 5 demoPts = [(-5, 0), (15, 0)] := by
  have h2 : 2 ≤ demoPts.length := by simp [demoPts]
  rw [extendLine_eq h2]
  have hL : demoPts.length = 2 := rfl
  rw [hL]
  norm_num
  have hg0 : demoPts[0]?.getD origin = ((0 : ℝ), (0 : ℝ)) := rfl
  have hg1 : demoPts[1]?.getD origin = ((10 : ℝ), (0 : ℝ)) := rfl
  rw [hg0, hg1, unitExtendPt_demo1, unitExtendPt_demo2]
  rfl

/-- Witness for claim C9 at a concrete two-vertex line. -/
theorem claim_C9_witness :
    2 ≤ demoPts.length
    ∧ (extendLine 5 demoPts).length = demoPts.length
    ∧ (extendLine 5 demoPts).getD 0 origin
        = unitExtendPt (demoPts.getD 1 origin) (demoPts.getD 0 origin) 5 :=
  ⟨by simp [demoPts],
    (claim_C9 5 [] demoPts (by simp [demoPts])).1,
    (claim_C9 5 [] demoPts (by simp [demoPts])).2.2.1⟩

/-! ### Arc-length effect of the extension step -/

/-- Extending both endpoints of a single segment lengthens it by twice the
buffer distance. -/
theorem segLen_double_extend {a b : Point} (hne : a ≠ b) {buffer : ℝ}
    (hb : 0 ≤ buffer) :
    segLen (unitExtendPt b a buffer) (unitExtendPt a b buffer)
      = segLen a b + 2 * buffer := by
  have hL : 0 < segLen a b := segLen_pos hne
  unfold unitExtendPt
  rw [segLen_comm b a]
  unfold segLen d2
  have key : ((a.1 + buffer / Real.sqrt ((a.1 - b.1) ^ 2 + (a.2 - b.2) ^ 2) * (a.1 - b.1))
        - (b.1 + buffer / Real.sqrt ((a.1 - b.1) ^ 2 + (a.2 - b.2) ^ 2) * (b.1 - a.1))) ^ 2
      + ((a.2 + buffer / Real.sqrt ((a.1 - b.1) ^ 2 + (a.2 - b.2) ^ 2) * (a.2 - b.2))
        - (b.2 + buffer / Real.sqrt ((a.1 - b.1) ^ 2 + (a.2 - b.2) ^ 2) * (b.2 - a.2))) ^ 2
      = (1 + 2 * (buffer / Real.sqrt ((a.1 - b.1) ^ 2 + (a.2 - b.2) ^ 2))) ^ 2
        * ((a.1 - b.1) ^ 2 + (a.2 - b.2) ^ 2) := by
    ring
  have hLs : Real.sqrt ((a.1 - b.1) ^ 2 + (a.2 - b.2) ^ 2) = segLen a b := rfl
  show Real.sqrt _ = _
  rw [key, Real.sqrt_mul (sq_nonneg _), Real.sqrt_sq (by rw [hLs]; positivity), hLs]
  field_simp

/-- Replacing the first vertex by its buffer extension adds exactly the
buffer distance to the polyline length. -/
theorem polyLen_set_head_extend {buffer : ℝ} (hb : 0 ≤ buffer) :
    ∀ pts : List Point, 2 ≤ pts.length →
      pts.getD 0 origin ≠ pts.getD 1 origin →
      polyLen (pts.set 0
        (unitExtendPt (pts.getD 1 origin) (pts.getD 0 origin) buffer))
        = polyLen pts + buffer
  | [], h, _ => absurd h (by simp)
  | [_], h, _ => absurd h (by simp)
  | p0 :: p1 :: rest, _, hne => by
    show polyLen (unitExtendPt p1 p0 buffer :: p1 :: rest)
      = polyLen (p0 :: p1 :: rest) + buffer
    show segLen (unitExtendPt p1 p0 buffer) p1 + polyLen (p1 :: rest)
      = (segLen p0 p1 + polyLen (p1 :: rest)) + buffer
    have hne2 : p1 ≠ p0 := Ne.symm hne
    rw [segLen_comm (unitExtendPt p1 p0 buffer) p1,
      segLen_unitExtendPt hne2 hb, segLen_comm p1 p0]
    ring

/-- Replacing the last vertex by its buffer extension adds exactly the
buffer distance to the polyline length. -/
theorem polyLen_set_last_extend {buffer : ℝ} (hb : 0 ≤ buffer) :
    ∀ l : List Point, 2 ≤ l.length →
      l.getD (l.length - 2) origin ≠ l.getD (l.length - 1) origin →
      polyLen (l.set (l.length - 1)
        (unitExtendPt (l.getD (l.length - 2) origin)
          (l.getD (l.length - 1) origin) buffer)) = polyLen l + buffer
  | [], h, _ => absurd h (by simp)
  | [_], h, _ => absurd h (by simp)
  | [a, b], _, hne => by
    have hne2 : a ≠ b := hne
    show polyLen [a, unitExtendPt a b buffer] = polyLen [a, b] + buffer
    show segLen a (unitExtendPt a b buffer) + 0 = (segLen a b + 0) + buffer
    rw [segLen_unitExtendPt hne2 hb]
    ring
  | a :: b :: c :: rest, _, hne => by
    have IH := polyLen_set_last_extend hb (b :: c :: rest) (by simp) hne
    have step : polyLen ((a :: b :: c :: rest).set ((a :: b :: c :: rest).length - 1)
        (unitExtendPt
          ((a :: b :: c :: rest).getD ((a :: b :: c :: rest).length - 2) origin)
          ((a :: b :: c :: rest).getD ((a :: b :: c :: rest).length - 1) origin)
          buffer))
        = segLen a b + polyLen ((b :: c :: rest).set ((b :: c :: rest).length - 1)
            (unitExtendPt
              ((b :: c :: rest).getD ((b :: c :: rest).length - 2) origin)
              ((b :: c :: rest).getD ((b :: c :: rest).length - 1) origin)
              buffer)) := rfl
    rw [step, IH]
    have hexp : polyLen (a :: b :: c :: rest)
        = segLen a b + polyLen (b :: c :: rest) := rfl
    rw [hexp]
    ring

/-- The extension step lengthens a cross-section polyline by exactly twice
the buffer distance (when both terminal segments are nondegenerate). -/
theorem polyLen_extendLine {buffer : ℝ} (hb : 0 ≤ buffer) :
    ∀ pts : List Point, 2 ≤ pts.length →
      pts.getD 0 origin ≠ pts.getD 1 origin →
      pts.getD (pts.length - 2) origin ≠ pts.getD (pts.length - 1) origin →
      polyLen (extendLine buffer pts) = polyLen pts + 2 * buffer
  | [], h, _, _ => absurd h (by simp)
  | [_], h, _, _ => absurd h (by simp)
  | [a, b], h2, hf, _ => by
    have hf2 : a ≠ b := hf
    rw [extendLine_eq h2]
    show polyLen [unitExtendPt b a buffer, unitExtendPt a b buffer]
      = polyLen [a, b] + 2 * buffer
    show segLen (unitExtendPt b a buffer) (unitExtendPt a b buffer) + 0
      = (segLen a b + 0) + 2 * buffer
    rw [segLen_double_extend hf2 hb]
    ring
  | p0 :: p1 :: p2 :: rest, h2, hf, hk => by
    rw [extendLine_eq h2]
    have hhead := polyLen_set_head_extend hb (p0 :: p1 :: p2 :: rest) h2 hf
    have hlast' : polyLen (((p0 :: p1 :: p2 :: rest).set 0
          (unitExtendPt p1 p0 buffer)).set
          ((p0 :: p1 :: p2 :: rest).length - 1)
          (unitExtendPt
            ((p0 :: p1 :: p2 :: rest).getD
              ((p0 :: p1 :: p2 :: rest).length - 2) origin)
            ((p0 :: p1 :: p2 :: rest).getD
              ((p0 :: p1 :: p2 :: rest).length - 1) origin) buffer))
        = polyLen ((p0 :: p1 :: p2 :: rest).set 0
            (unitExtendPt p1 p0 buffer)) + buffer :=
      polyLen_set_last_extend hb
        ((p0 :: p1 :: p2 :: rest).set 0 (unitExtendPt p1 p0 buffer))
        (by simp) hk
    have hhead' : polyLen ((p0 :: p1 :: p2 :: rest).set 0
          (unitExtendPt p1 p0 buffer))
        = polyLen (p0 :: p1 :: p2 :: rest) + buffer := hhead
    rw [show ((p0 :: p1 :: p2 :: rest).getD 1 origin) = p1 from rfl,
      show ((p0 :: p1 :: p2 :: rest).getD 0 origin) = p0 from rfl]
    rw [hlast', hhead']
    ring

/-- Claim C1: the OnLine_DIST value projects the well onto the extended
line and subtracts the buffer distance, so the reported position is
relative to the original line start; the extended line is longer than the
original by exactly twice the buffer, a projection landing before the
original start (measure below the buffer) yields a negative value, a
projection landing beyond the original end (measure above buffer plus
original length) yields a value above the original length, and the value
is never clamped to the range from 0 to the original length. -/
theorem claim_C1 (buffer : ℝ) (pts : List Point) (q : Point)
    (h2 : 2 ≤ pts.length) (hb : 0 < buffer)
    (hfront : pts.getD 0 origin ≠ pts.getD 1 origin)
    (hback : pts.getD (pts.length - 2) origin
      ≠ pts.getD (pts.length - 1) origin) :
    onLineDistVal buffer pts q
        = measureOnLine (extendLine buffer pts)
            (polyNearPt (extendLine buffer pts) q) - buffer
    ∧ polyLen (extendLine buffer pts) = polyLen pts + 2 * buffer
    ∧ (measureOnLine (extendLine buffer pts)
          (polyNearPt (extendLine buffer pts) q) < buffer →
        onLineDistVal buffer pts q < 0)
    ∧ (buffer + polyLen pts
          < measureOnLine (extendLine buffer pts)
              (polyNearPt (extendLine buffer pts) q) →
        polyLen pts < onLineDistVal buffer pts q) := by
  refine ⟨rfl, polyLen_extendLine (le_of_lt hb) pts h2 hfront hback, ?_, ?_⟩ <;>
    · intro h
      unfold onLineDistVal
      linarith

/-! ### Concrete evaluation of the projection pipeline -/

theorem d2_demo_ext : d2 ((-3 : ℝ), (0 : ℝ)) ((-3 : ℝ), (0 : ℝ)) = 0 := by
  unfold d2; norm_num

theorem d2_demo_seg : d2 ((-5 : ℝ), (0 : ℝ)) ((15 : ℝ), (0 : ℝ)) = 400 := by
  unfold d2; norm_num

theorem segLen_demo_ext : segLen ((-5 : ℝ), (0 : ℝ)) ((15 : ℝ), (0 : ℝ)) = 20 := by
  unfold segLen
  rw [d2_demo_seg, show (400 : ℝ) = 20 ^ 2 by norm_num,
    Real.sqrt_sq (by norm_num : (0 : ℝ) ≤ 20)]

theorem segParam_demo :
    segParam ((-5 : ℝ), (0 : ℝ)) ((15 : ℝ), (0 : ℝ)) ((-3 : ℝ), (0 : ℝ))
      = 1 / 10 := by
  unfold segParam
  rw [if_neg (by rw [d2_demo_seg]; norm_num), d2_demo_seg]
  unfold dotP subP
  norm_num

theorem segPt_demo :
    segPt ((-5 : ℝ), (0 : ℝ)) ((15 : ℝ), (0 : ℝ)) (1 / 10)
      = ((-3 : ℝ), (0 : ℝ)) := by
  unfold segPt
  norm_num

/-- Scan of the extended demo line against the query point (-3, 0): the
nearest point is (-3, 0) itself, at distance 0 and measure 2 from the
extended start. -/
theorem polyScan_demo :
    polyScan [((-5 : ℝ), (0 : ℝ)), ((15 : ℝ), (0 : ℝ))] ((-3 : ℝ), (0 : ℝ))
      = ⟨0, ((-3 : ℝ), (0 : ℝ)), 2⟩ := by
  simp only [polyScan, List.zip_nil_right, scanSegs]
  rw [segParam_demo, segPt_demo, segLen_demo_ext, d2_demo_ext]
  norm_num

/-- The OnLine_DIST pipeline measures the demo query point at 2 along the
extended line. -/
theorem measure_demo :
    measureOnLine (extendLine 5 demoPts)
      (polyNearPt (extendLine 5 demoPts) ((-3 : ℝ), (0 : ℝ))) = 2 := by
  rw [extendLine_demo]
  unfold measureOnLine polyNearPt
  rw [polyScan_demo]
  show (polyScan [((-5 : ℝ), (0 : ℝ)), ((15 : ℝ), (0 : ℝ))]
    ((-3 : ℝ), (0 : ℝ))).m = 2
  rw [polyScan_demo]

/-- Witness for claim C1: on the demo line, a well 3 units before the
original start receives a negative OnLine_DIST value. -/
theorem claim_C1_witness :
    ((2 ≤ demoPts.length ∧ (0 : ℝ) < 5)
      ∧ demoPts.getD 0 origin ≠ demoPts.getD 1 origin
      ∧ demoPts.getD (demoPts.length - 2) origin
          ≠ demoPts.getD (demoPts.length - 1) origin)
    ∧ onLineDistVal 5 demoPts ((-3 : ℝ), (0 : ℝ)) < 0 := by
  have hf : demoPts.getD 0 origin ≠ demoPts.getD 1 origin := by
    show ((0 : ℝ), (0 : ℝ)) ≠ ((10 : ℝ), (0 : ℝ))
    intro hcon
    have := congrArg Prod.fst hcon
    norm_num at this
  have hk : demoPts.getD (demoPts.length - 2) origin
      ≠ demoPts.getD (demoPts.length - 1) origin := hf
  refine ⟨⟨⟨by simp [demoPts], by norm_num⟩, hf, hk⟩, ?_⟩
  have h := claim_C1 5 demoPts ((-3 : ℝ), (0 : ℝ)) (by simp [demoPts])
    (by norm_num) hf hk
  exact h.2.2.1 (by rw [measure_demo]; norm_num)

/-! ### Facts about the truncation step -/

theorem pyInt_intCast (n : ℤ) : pyInt ((n : ℤ) : ℝ) = n := by
  unfold pyInt
  split
  · exact Int.floor_intCast n
  · exact Int.ceil_intCast n

theorem pyInt_half : pyInt (1 / 2 : ℝ) = 0 := by
  unfold pyInt
  rw [if_pos (by norm_num : (0 : ℝ) ≤ 1 / 2)]
  rw [Int.floor_eq_zero_iff]
  constructor <;> norm_num

theorem pyInt_neg_five_half : pyInt (-(5 / 2) : ℝ) = -2 := by
  unfold pyInt
  rw [if_neg (by norm_num)]
  rw [Int.ceil_eq_iff]
  push_cast
  constructor <;> norm_num

/-- Scan of the extended demo line against the query point (-5/2, 0). -/
theorem polyScan_demo2 :
    polyScan [((-5 : ℝ), (0 : ℝ)), ((15 : ℝ), (0 : ℝ))]
      ((-(5 / 2) : ℝ), (0 : ℝ)) = ⟨0, ((-(5 / 2) : ℝ), (0 : ℝ)), 5 / 2⟩ := by
  have hparam : segParam ((-5 : ℝ), (0 : ℝ)) ((15 : ℝ), (0 : ℝ))
      ((-(5 / 2) : ℝ), (0 : ℝ)) = 1 / 8 := by
    unfold segParam
    rw [if_neg (by rw [d2_demo_seg]; norm_num), d2_demo_seg]
    unfold dotP subP
    norm_num
  have hpt : segPt ((-5 : ℝ), (0 : ℝ)) ((15 : ℝ), (0 : ℝ)) (1 / 8)
      = ((-(5 / 2) : ℝ), (0 : ℝ)) := by
    unfold segPt
    norm_num
  simp only [polyScan, List.zip_nil_right, scanSegs]
  rw [hparam, hpt, segLen_demo_ext]
  unfold d2
  norm_num

/-- The OnLine_DIST value of a well at (-5/2, 0) against the demo line
with buffer 5 is -5/2 (the well projects half a meter before the original
start). -/
theorem onLineDist_demo2 :
    onLineDistVal 5 demoPts ((-(5 / 2) : ℝ), (0 : ℝ)) = -(5 / 2) := by
  unfold onLineDistVal measureOnLine polyNearPt
  rw [extendLine_demo, polyScan_demo2]
  show (polyScan [((-5 : ℝ), (0 : ℝ)), ((15 : ℝ), (0 : ℝ))]
    ((-(5 / 2) : ℝ), (0 : ℝ))).m - 5 = -(5 / 2)
  rw [polyScan_demo2]
  norm_num

/-- Claim C7 counterexample: for the same well point (-5/2, 0), the same
demo cross-section line, the same buffer distance 5 and the same vertical
exaggeration 1, the SWL script computes x = -2/0.3048 while the
construction script computes x = -(5/2)/0.3048: the two scripts do not
implement one and the same projection routine. -/
theorem claim_C7_counterexample :
    swlWellX 5 1 demoPts ((-(5 / 2) : ℝ), (0 : ℝ))
      ≠ conspyWellX 5 1 demoPts ((-(5 / 2) : ℝ), (0 : ℝ)) := by
  unfold swlWellX conspyWellX swl_x_coord_2d conspy_x_coord
  rw [onLineDist_demo2, pyInt_neg_five_half]
  norm_num

/-- Claim C7 (amended): the SWL x-coordinate equals the construction
script x-coordinate applied to the truncated (toward zero, by Python
`int()`) along-line distance; in particular the two agree whenever the
along-line distance in meters is an integer. -/
theorem claim_C7 (ve s : ℝ) (n : ℤ) :
    swl_x_coord_2d ve s = conspy_x_coord ve ((pyInt s : ℤ) : ℝ)
    ∧ swl_x_coord_2d ve ((n : ℤ) : ℝ) = conspy_x_coord ve ((n : ℤ) : ℝ) := by
  constructor
  · rfl
  · unfold swl_x_coord_2d conspy_x_coord
    rw [pyInt_intCast]

/-- Claim C2 counterexample: at OnLine_DIST = 1/2 meter and vertical
exaggeration 1 the SWL script writes x_coord_2d = 0, while s in feet
divided by the vertical exaggeration is nonzero. -/
theorem claim_C2_counterexample :
    (swlProcessWell 500 1 0 (1 / 2) demoWell).map (fun r => r.x_coord_2d)
      = some 0
    ∧ ((1 / 2 : ℝ) / 0.3048 / 1) ≠ 0 := by
  constructor
  · show some (swl_x_coord_2d 1 (1 / 2)) = some 0
    unfold swl_x_coord_2d
    rw [pyInt_half]
    norm_num
  · norm_num

/-- Claim C2 (amended): for every well written to the SWL 2D output, the
output geometry is (trunc(s meters)/0.3048/VE, meas_elev) — the meters
value is truncated toward zero by `int()` before the feet conversion —
and the y-coordinate is the measured elevation unchanged; in the
construction script the 2D endpoints are (s/0.3048/VE, elev_top) and
(s/0.3048/VE, elev_bot) with no truncation and no transform on y. -/
theorem claim_C2 (buffer ve nd od : ℝ) (w : SWLWell) (row : SWLRow)
    (wellsM : List MergedWell) (r : ConspyRec) (r2 : ConspyRow2D)
    (hs : swlProcessWell buffer ve nd od w = some row)
    (hc : (conspyStep buffer ve wellsM r).2.1 = some r2) :
    (row.shape = (((pyInt od : ℤ) : ℝ) / 0.3048 / ve, row.y_coord_2d)
      ∧ row.x_coord_2d = ((pyInt od : ℤ) : ℝ) / 0.3048 / ve
      ∧ w.meas_elev = some row.y_coord_2d)
    ∧ ∃ w2 zt zb,
        (wellsM.filter (fun x => x.wellid = r.wellid)).getLast? = some w2
        ∧ r.elev_top = some zt ∧ r.elev_bot = some zb
        ∧ r2.shapeA = (w2.online_dist / 0.3048 / ve, zt)
        ∧ r2.shapeB = (w2.online_dist / 0.3048 / ve, zb) := by
  constructor
  · cases he : w.elevation with
    | none => simp [swlProcessWell, he] at hs
    | some wz =>
      cases hm : w.meas_elev with
      | none => simp [swlProcessWell, he, hm] at hs
      | some sz =>
        simp [swlProcessWell, he, hm] at hs
        rw [← hs]
        exact ⟨rfl, rfl, rfl⟩
  · cases ht : r.elev_top with
    | none => simp [conspyStep, ht] at hc
    | some zt =>
      cases hb2 : r.elev_bot with
      | none => simp [conspyStep, ht, hb2] at hc
      | some zb =>
        cases hg : (wellsM.filter (fun x => x.wellid = r.wellid)).getLast? with
        | none => simp [conspyStep, ht, hb2, hg] at hc
        | some w2 =>
          simp [conspyStep, ht, hb2, hg] at hc
          exact ⟨w2, zt, zb, rfl, rfl, rfl, by rw [← hc]; exact rfl,
            by rw [← hc]; exact rfl⟩

/-- Witness for claim C2 at concrete wells and records. -/
theorem claim_C2_witness :
    (swlProcessWell 500 50 7 3 demoWell = some demoRow
      ∧ (conspyStep 500 50 [demoMerged] demoRec).2.1 = some demoRow2D)
    ∧ demoRow.x_coord_2d = ((pyInt 3 : ℤ) : ℝ) / 0.3048 / 50 := by
  refine ⟨⟨rfl, rfl⟩, ?_⟩
  exact (claim_C2 500 50 7 3 demoWell demoRow [demoMerged] demoRec demoRow2D
    rfl rfl).1.2.1

/-- Claim C5: rows with a null elevation or measurement value are skipped
and processing continues with the remaining rows: the skipped row
produces no output, and the output over a list of rows equals the output
over the list without that row. -/
theorem claim_C5 (buffer ve nd od : ℝ) (w : SWLWell) (lines : List XslnRow)
    (wells : List SWLWell) (wellsM : List MergedWell) (r : ConspyRec)
    (recs : List ConspyRec)
    (hw : w.elevation = none ∨ w.meas_elev = none)
    (hr : r.elev_top = none ∨ r.elev_bot = none) :
    swlProcessWell buffer ve nd od w = none
    ∧ swlCreate2D buffer ve lines (w :: wells)
        = swlCreate2D buffer ve lines wells
    ∧ conspyStep buffer ve wellsM r = (none, none, none)
    ∧ conspyPhase buffer ve wellsM (r :: recs)
        = conspyPhase buffer ve wellsM recs := by
  have h1 : ∀ a b : ℝ, swlProcessWell buffer ve a b w = none := by
    intro a b
    rcases hw with h | h
    · simp [swlProcessWell, h]
    · cases he : w.elevation <;> simp [swlProcessWell, he, h]
  have h3 : conspyStep buffer ve wellsM r = (none, none, none) := by
    rcases hr with h | h
    · simp [conspyStep, h]
    · cases ht : r.elev_top <;> simp [conspyStep, ht, h]
  refine ⟨h1 nd od, ?_, h3, ?_⟩
  · have hf : (wellNear buffer lines w.etid w.loc).bind
        (fun p => swlProcessWell buffer ve p.1 p.2 w) = none := by
      cases hwn : wellNear buffer lines w.etid w.loc with
      | none => rfl
      | some p => exact h1 p.1 p.2
    simp [swlCreate2D, List.filterMap_cons, hf]
  · simp [conspyPhase, h3]

/-- Witness for claim C5 at a concrete null-elevation well and a concrete
null-elevation construction record. -/
theorem claim_C5_witness :
    (demoWellNull.elevation = none ∨ demoWellNull.meas_elev = none)
    ∧ (demoRecNull.elev_top = none ∨ demoRecNull.elev_bot = none)
    ∧ swlProcessWell 500 50 0 0 demoWellNull = none
    ∧ conspyStep 500 50 [] demoRecNull = (none, none, none) := by
  have h := claim_C5 500 50 0 0 demoWellNull [] [] [] demoRecNull []
    (Or.inl rfl) (Or.inl rfl)
  exact ⟨Or.inl rfl, Or.inl rfl, h.1, h.2.2.1⟩

/-- Claim C4: every written 2D row carries
pct_dist = NEAR_DIST / buffer * 200, where NEAR_DIST is the Near-analysis
distance from the well to its nearest point on the (extended) line whose
`et_id` matches the well. -/
theorem claim_C4 (buffer ve nd od : ℝ) (w : SWLWell) (row : SWLRow)
    (lines : List XslnRow) (etid : String) (loc : Point) (p : ℝ × ℝ)
    (wellsM : List MergedWell) (r : ConspyRec) (r2 : ConspyRow2D)
    (hs : swlProcessWell buffer ve nd od w = some row)
    (hn : wellNear buffer lines etid loc = some p)
    (hc : (conspyStep buffer ve wellsM r).2.1 = some r2) :
    row.pct_dist = nd / buffer * 200
    ∧ (∃ L, L ∈ extendXslnLoop buffer lines ∧ L.et_id = etid
        ∧ p.1 = polyNearDist L.shape loc)
    ∧ ∃ w2, (wellsM.filter (fun x => x.wellid = r.wellid)).getLast? = some w2
        ∧ r2.pct_dist = w2.near_dist / buffer * 200 := by
  refine ⟨?_, ?_, ?_⟩
  · cases he : w.elevation with
    | none => simp [swlProcessWell, he] at hs
    | some wz =>
      cases hm : w.meas_elev with
      | none => simp [swlProcessWell, he, hm] at hs
      | some sz =>
        simp [swlProcessWell, he, hm] at hs
        rw [← hs]
        rfl
  · unfold wellNear nearFields at hn
    obtain ⟨L, hfind, hmap⟩ := Option.map_eq_some'.mp hn
    have hp := List.find?_some hfind
    refine ⟨L, List.mem_of_find?_eq_some hfind, of_decide_eq_true hp, ?_⟩
    rw [← hmap]
  · cases ht : r.elev_top with
    | none => simp [conspyStep, ht] at hc
    | some zt =>
      cases hb2 : r.elev_bot with
      | none => simp [conspyStep, ht, hb2] at hc
      | some zb =>
        cases hg : (wellsM.filter (fun x => x.wellid = r.wellid)).getLast? with
        | none => simp [conspyStep, ht, hb2, hg] at hc
        | some w2 =>
          simp [conspyStep, ht, hb2, hg] at hc
          exact ⟨w2, rfl, by rw [← hc]; rfl⟩

/-- Witness for claim C4 at concrete wells, lines and records. -/
theorem claim_C4_witness :
    (swlProcessWell 500 50 7 3 demoWell = some demoRow
      ∧ wellNear 500 demoLines "A" ((0 : ℝ), (0 : ℝ)) = some demoNearPair
      ∧ (conspyStep 500 50 [demoMerged] demoRec).2.1 = some demoRow2D)
    ∧ demoRow.pct_dist = 7 / 500 * 200 := by
  refine ⟨⟨rfl, rfl, rfl⟩, ?_⟩
  exact (claim_C4 500 50 7 3 demoWell demoRow demoLines "A"
    ((0 : ℝ), (0 : ℝ)) demoNearPair [demoMerged] demoRec demoRow2D
    rfl rfl rfl).1

/-! ### Line assignment (claim C3) -/

/-- Claim C3 (amended): the line a well is projected onto is the (unique)
cross-section line whose `et_id` equals the well's cross-section id
attribute — the scripts select wells by id per line and run the Near
analysis against that line only — regardless of which line is nearest. -/
theorem claim_C3 (buffer : ℝ) (lines : List XslnRow) (etid : String)
    (loc : Point) (L : XslnRow) (hmem : L ∈ lines) (hid : L.et_id = etid)
    (huniq : ∀ M ∈ lines, M.et_id = etid → M = L) :
    wellNear buffer lines etid loc
      = some (polyNearDist (extendLine buffer L.shape) loc,
          measureOnLine (extendLine buffer L.shape)
            (polyNearPt (extendLine buffer L.shape) loc) - buffer) := by
  have hfind : ∀ ls : List XslnRow, L ∈ ls →
      (∀ M ∈ ls, M.et_id = etid → M = L) →
      (extendXslnLoop buffer ls).find? (fun r => r.et_id = etid)
        = some ⟨L.et_id, extendLine buffer L.shape⟩ := by
    intro ls
    induction ls with
    | nil => intro h _; cases h
    | cons a as ih =>
      intro hmem2 huniq2
      show List.find? _
        (⟨a.et_id, extendLine buffer a.shape⟩ :: extendXslnLoop buffer as) = _
      by_cases ha : a.et_id = etid
      · have haL : a = L := huniq2 a (List.mem_cons_self a as) ha
        subst haL
        rw [List.find?_cons_of_pos]
        simp [ha]
      · rw [List.find?_cons_of_neg]
        · refine ih ?_ ?_
          · rcases List.mem_cons.mp hmem2 with h | h
            · exact absurd (h ▸ hid) ha
            · exact h
          · exact fun M hM hMe => huniq2 M (List.mem_cons_of_mem a hM) hMe
        · simp [ha]
  unfold wellNear nearFields
  rw [hfind lines hmem huniq]
  rfl

theorem polyScan_demoA :
    polyScan demoLineA.shape ((0 : ℝ), (0 : ℝ))
      = ⟨25, ((0 : ℝ), (5 : ℝ)), 0⟩ := by
  show polyScan [((0 : ℝ), (5 : ℝ)), ((10 : ℝ), (5 : ℝ))] ((0 : ℝ), (0 : ℝ)) = _
  have hparam : segParam ((0 : ℝ), (5 : ℝ)) ((10 : ℝ), (5 : ℝ))
      ((0 : ℝ), (0 : ℝ)) = 0 := by
    unfold segParam d2 dotP subP
    norm_num
  simp only [polyScan, List.zip_nil_right, scanSegs]
  rw [hparam]
  unfold segPt d2
  norm_num

theorem polyScan_demoB :
    polyScan demoLineB.shape ((0 : ℝ), (0 : ℝ))
      = ⟨1, ((0 : ℝ), (1 : ℝ)), 0⟩ := by
  show polyScan [((0 : ℝ), (1 : ℝ)), ((10 : ℝ), (1 : ℝ))] ((0 : ℝ), (0 : ℝ)) = _
  have hparam : segParam ((0 : ℝ), (1 : ℝ)) ((10 : ℝ), (1 : ℝ))
      ((0 : ℝ), (0 : ℝ)) = 0 := by
    unfold segParam d2 dotP subP
    norm_num
  simp only [polyScan, List.zip_nil_right, scanSegs]
  rw [hparam]
  unfold segPt d2
  norm_num

/-- Claim C3 counterexample: the well at the origin with cross-section id
"A" is assigned line "A" (distance 5) although line "B" is nearer
(distance 1), so the projection line is not the distance minimizer. -/
theorem claim_C3_counterexample :
    demoLines.find? (fun r => r.et_id = "A") = some demoLineA
    ∧ polyNearDist demoLineB.shape ((0 : ℝ), (0 : ℝ))
        < polyNearDist demoLineA.shape ((0 : ℝ), (0 : ℝ)) := by
  constructor
  · rfl
  · unfold polyNearDist
    rw [polyScan_demoA, polyScan_demoB]
    show Real.sqrt 1 < Real.sqrt 25
    rw [Real.sqrt_one, show (25 : ℝ) = 5 ^ 2 by norm_num,
      Real.sqrt_sq (by norm_num : (0 : ℝ) ≤ 5)]
    norm_num

/-- Witness for claim C3 on the demo data. -/
theorem claim_C3_witness :
    (demoLineA ∈ demoLines ∧ demoLineA.et_id = "A"
      ∧ ∀ M ∈ demoLines, M.et_id = "A" → M = demoLineA)
    ∧ wellNear 500 demoLines "A" ((0 : ℝ), (0 : ℝ))
        = some (polyNearDist (extendLine 500 demoLineA.shape)
            ((0 : ℝ), (0 : ℝ)),
          measureOnLine (extendLine 500 demoLineA.shape)
            (polyNearPt (extendLine 500 demoLineA.shape)
              ((0 : ℝ), (0 : ℝ))) - 500) := by
  have huniq : ∀ M ∈ demoLines, M.et_id = "A" → M = demoLineA := by
    intro M hM hMe
    rcases List.mem_cons.mp hM with h | h
    · exact h
    · have hB : M = demoLineB := by simpa [demoLines] using h
      subst hB
      exact absurd hMe (by decide)
  refine ⟨⟨by simp [demoLines], rfl, huniq⟩, ?_⟩
  exact claim_C3 500 demoLines "A" ((0 : ℝ), (0 : ℝ)) demoLineA
    (by simp [demoLines]) rfl huniq

/-! ### Validation ordering (claims C6 and C8) -/

/-- Claim C6: whenever the buffer distance or the vertical exaggeration is
not positive, both scripts halt during validation with no output feature
class created; when both are strictly positive, the parameter checks pass
and execution continues into the row-count checks (so both parameters are
positive throughout the rest of the run). -/
theorem claim_C6 (buffer ve : ℤ) (wc xc cc : ℕ) :
    ((buffer ≤ 0 ∨ ve ≤ 0) →
      (swlRun buffer ve wc xc).created = []
      ∧ (swlRun buffer ve wc xc).halted.isSome
      ∧ (conspyRun buffer ve cc wc xc).created = []
      ∧ (conspyRun buffer ve cc wc xc).halted.isSome)
    ∧ (0 < buffer → 0 < ve →
      paramCheck buffer ve = Except.ok ()
      ∧ swlValidate buffer ve wc xc = swlCountCheck wc xc
      ∧ conspyValidate buffer ve cc wc xc = conspyCountCheck cc wc xc) := by
  constructor
  · intro h
    have hp : ∃ e, paramCheck buffer ve = Except.error e := by
      rcases h with h | h
      · exact ⟨"Error: Buffer distance must be greater than zero.",
          by simp [paramCheck, h]⟩
      · by_cases hb : buffer ≤ 0
        · exact ⟨"Error: Buffer distance must be greater than zero.",
            by simp [paramCheck, hb]⟩
        · exact ⟨"Error: Vertical Exaggeration must be greater than 0.",
            by simp [paramCheck, hb, h]⟩
    obtain ⟨e, he⟩ := hp
    refine ⟨?_, ?_, ?_, ?_⟩ <;>
      simp [swlRun, conspyRun, swlValidate, conspyValidate, he]
  · intro hb hv
    have hp : paramCheck buffer ve = Except.ok () := by
      simp [paramCheck, not_le.mpr hb, not_le.mpr hv]
    exact ⟨hp, by simp [swlValidate, hp], by simp [conspyValidate, hp]⟩

/-- Witness for claim C6 at concrete parameter values. -/
theorem claim_C6_witness :
    ((-1 : ℤ) ≤ 0 ∨ (50 : ℤ) ≤ 0)
    ∧ (swlRun (-1) 50 10 5).created = []
    ∧ (conspyRun (-1) 50 3 10 5).created = []
    ∧ ((0 : ℤ) < 500 ∧ (0 : ℤ) < 50
        ∧ paramCheck 500 50 = Except.ok ()) := by
  have h := claim_C6 (-1) 50 10 5 3
  have h2 := claim_C6 500 50 10 5 3
  exact ⟨Or.inl (by norm_num), (h.1 (Or.inl (by norm_num))).1,
    (h.1 (Or.inl (by norm_num))).2.2.1,
    by norm_num, by norm_num, (h2.2 (by norm_num) (by norm_num)).1⟩

/-- Claim C8: a run with an empty well point file or an empty
cross-section line file (or, in the construction script, an empty
construction table) halts with SystemExit during validation, before any
output feature class is created. -/
theorem claim_C8 (buffer ve : ℤ) (wc xc cc : ℕ) :
    (wc = 0 ∨ xc = 0 →
      (swlRun buffer ve wc xc).created = []
      ∧ (swlRun buffer ve wc xc).halted.isSome)
    ∧ (cc = 0 ∨ wc = 0 ∨ xc = 0 →
      (conspyRun buffer ve cc wc xc).created = []
      ∧ (conspyRun buffer ve cc wc xc).halted.isSome) := by
  constructor
  · intro hw
    have hval : ∃ e, swlValidate buffer ve wc xc = Except.error e := by
      unfold swlValidate
      cases hpc : paramCheck buffer ve with
      | error e => exact ⟨e, rfl⟩
      | ok u =>
        rcases hw with h | h
        · exact ⟨"Error: well location point file is empty.",
            by simp [swlCountCheck, h]⟩
        · by_cases hw0 : wc = 0
          · exact ⟨"Error: well location point file is empty.",
              by simp [swlCountCheck, hw0]⟩
          · exact ⟨"Error: cross section line file is empty.",
              by simp [swlCountCheck, hw0, h]⟩
    obtain ⟨e, he⟩ := hval
    constructor <;> simp [swlRun, he]
  · intro hw
    have hval : ∃ e, conspyValidate buffer ve cc wc xc = Except.error e := by
      unfold conspyValidate
      cases hpc : paramCheck buffer ve with
      | error e => exact ⟨e, rfl⟩
      | ok u =>
        by_cases hc0 : cc = 0
        · exact ⟨"Error: construction table is empty.",
            by simp [conspyCountCheck, hc0]⟩
        · by_cases hw0 : wc = 0
          · exact ⟨"Error: well location point file is empty.",
              by simp [conspyCountCheck, hc0, hw0]⟩
          · have hx0 : xc = 0 := by tauto
            exact ⟨"Error: cross section line file is empty.",
              by simp [conspyCountCheck, hc0, hw0, hx0]⟩
    obtain ⟨e, he⟩ := hval
    constructor <;> simp [conspyRun, he]

/-- Witness for claim C8 at concrete empty inputs. -/
theorem claim_C8_witness :
    ((0 : ℕ) = 0 ∨ (5 : ℕ) = 0)
    ∧ (swlRun 500 50 0 5).created = []
    ∧ (conspyRun 500 50 0 10 5).created = [] := by
  have h := claim_C8 500 50 0 5 0
  exact ⟨Or.inl rfl, (h.1 (Or.inl rfl)).1,
    (h.2 (Or.inl rfl)).1⟩

/-! ### No-match handling in the construction script (claim C10) -/

/-- The no-match list accumulated by the construction loop is exactly the
well ids of the records with non-null elevations and no matching merged
well point, in record order. -/
theorem conspyPhase_nomatch (buffer ve : ℝ) (wellsM : List MergedWell) :
    ∀ rs : List ConspyRec, (conspyPhase buffer ve wellsM rs).2.2
      = (rs.filter (conspyNoMatch wellsM)).map (fun x => x.wellid)
  | [] => rfl
  | r :: rest => by
    have IH := conspyPhase_nomatch buffer ve wellsM rest
    cases ht : r.elev_top with
    | none =>
      have hstep : conspyStep buffer ve wellsM r = (none, none, none) := by
        simp [conspyStep, ht]
      have hnm : conspyNoMatch wellsM r = false := by
        simp [conspyNoMatch, ht]
      simp [conspyPhase, hstep, hnm, IH]
    | some zt =>
      cases hb : r.elev_bot with
      | none =>
        have hstep : conspyStep buffer ve wellsM r = (none, none, none) := by
          simp [conspyStep, ht, hb]
        have hnm : conspyNoMatch wellsM r = false := by
          simp [conspyNoMatch, ht, hb]
        simp [conspyPhase, hstep, hnm, IH]
      | some zb =>
        cases hf : wellsM.filter (fun w => w.wellid = r.wellid) with
        | nil =>
          have hstep : conspyStep buffer ve wellsM r
              = (none, none, some r.wellid) := by
            simp [conspyStep, ht, hb, hf]
          have hnm : conspyNoMatch wellsM r = true := by
            simp [conspyNoMatch, ht, hb, hf]
          simp [conspyPhase, hstep, hnm, IH]
        | cons a l =>
          obtain ⟨w2, hw2⟩ : ∃ w2,
              (wellsM.filter (fun w => w.wellid = r.wellid)).getLast?
                = some w2 := by
            rw [hf]
            cases hl : (a :: l).getLast? with
            | some w => exact ⟨w, rfl⟩
            | none =>
              exact absurd (List.getLast?_eq_none_iff.mp hl) (by simp)
          have hstep : (conspyStep buffer ve wellsM r).2.2 = none := by
            simp [conspyStep, ht, hb, hw2]
          have hnm : conspyNoMatch wellsM r = false := by
            simp [conspyNoMatch, ht, hb, hf]
          simp [conspyPhase, hstep, hnm, IH]

/-- Claim C10 (amended): every construction record with non-null
elevations whose well id matches no merged well point produces no 3D and
no 2D row, lands on the no-match list (which holds exactly the well ids
of such records), and the final report then prints the total count
once. -/
theorem claim_C10 (buffer ve : ℝ) (wellsM : List MergedWell) (r : ConspyRec)
    (zt zb : ℝ) (recs : List ConspyRec)
    (ht : r.elev_top = some zt) (hb : r.elev_bot = some zb)
    (hnm : wellsM.filter (fun w => w.wellid = r.wellid) = []) :
    conspyStep buffer ve wellsM r = (none, none, some r.wellid)
    ∧ (conspyPhase buffer ve wellsM (r :: recs)).1
        = (conspyPhase buffer ve wellsM recs).1
    ∧ (conspyPhase buffer ve wellsM (r :: recs)).2.1
        = (conspyPhase buffer ve wellsM recs).2.1
    ∧ r.wellid ∈ (conspyPhase buffer ve wellsM (r :: recs)).2.2
    ∧ (conspyPhase buffer ve wellsM (r :: recs)).2.2
        = ((r :: recs).filter (conspyNoMatch wellsM)).map (fun x => x.wellid)
    ∧ conspyNoMatchReport ((conspyPhase buffer ve wellsM (r :: recs)).2.2)
        = some ((conspyPhase buffer ve wellsM (r :: recs)).2.2.length) := by
  have hstep : conspyStep buffer ve wellsM r = (none, none, some r.wellid) := by
    simp [conspyStep, ht, hb, hnm]
  have h22 : (conspyPhase buffer ve wellsM (r :: recs)).2.2
      = r.wellid :: (conspyPhase buffer ve wellsM recs).2.2 := by
    simp [conspyPhase, hstep]
  refine ⟨hstep, by simp [conspyPhase, hstep], by simp [conspyPhase, hstep],
    by rw [h22]; exact List.mem_cons_self _ _,
    conspyPhase_nomatch buffer ve wellsM (r :: recs), ?_⟩
  rw [h22]
  simp [conspyNoMatchReport]

/-- Claim C10 counterexample: a construction record with a null
`elev_top` and no matching well point is skipped by the null check first,
so its well id is never appended to the no-match list. -/
theorem claim_C10_counterexample :
    ([] : List MergedWell).filter
        (fun w => w.wellid = demoRecNull.wellid) = []
    ∧ demoRecNull.wellid = "w9"
    ∧ (conspyPhase 500 50 [] [demoRecNull]).2.2 = []
    ∧ "w9" ∉ (conspyPhase 500 50 [] [demoRecNull]).2.2 := by
  refine ⟨rfl, rfl, ?_, ?_⟩ <;>
    simp [conspyPhase, conspyStep, demoRecNull]

/-- Witness for claim C10 at a concrete no-match record. -/
theorem claim_C10_witness :
    (demoRec.elev_top = some 100 ∧ demoRec.elev_bot = some 80
      ∧ ([] : List MergedWell).filter
          (fun w => w.wellid = demoRec.wellid) = [])
    ∧ conspyStep 500 50 [] demoRec = (none, none, some demoRec.wellid)
    ∧ demoRec.wellid ∈ (conspyPhase 500 50 [] [demoRec]).2.2 := by
  have h := claim_C10 500 50 [] demoRec 100 80 [] rfl rfl rfl
  exact ⟨⟨rfl, rfl, rfl⟩, h.1, h.2.2.2.1⟩

end

end Xsec
